import Mathlib

/-!
Verification of the block lifecycle core (src/core/src/block.rs): the typed
block state progression Pending to Chained to Valid to ValidSigned to
Committed, the Candidate wire form with its revalidation, and the in-memory
height-keyed Chain with its bidirectional iterator.

Collaborators of the core (hash function, Merkle tree, signatures, the
transaction validator, the world-state view and the configuration constants)
live outside the translated source; they are modelled from the spec and each
such definition says so in its doc comment.

u64 arithmetic conventions: header heights use wrapping arithmetic
(mod 2 to the 64th); the iterator position arithmetic, whose partiality is
itself under scrutiny, is modelled with checked operations where the value
none stands for the arithmetic overflow or underflow panic of a debug build.
-/

namespace Iroha

/-- Modelled from the spec: content hashes produced by the hash collaborator
are opaque fixed-width values, represented as natural numbers with 0 as the
distinguished all-zero sentinel. -/
abbrev Hash := Nat

/-- The all-zero hash: Hash::zeroed().typed() and EmptyChainHash in the
source. -/
def Hash.zeroed : Hash := 0

/-- The modulus of u64 arithmetic. -/
def U64 : Nat := 2 ^ 64

/-- Checked u64 addition; none models the arithmetic-overflow panic of a
debug build. -/
def checkedAdd (a b : Nat) : Option Nat :=
  if a + b < U64 then some (a + b) else none

/-- Checked u64 subtraction; none models the arithmetic-underflow panic of a
debug build. -/
def checkedSub (a b : Nat) : Option Nat :=
  if b ≤ a then some (a - b) else none

/-- Modelled from the spec: transactions are opaque to the block core; the
accepted, valid, rejected and signed forms of a transaction all carry the
same payload (the conversions between these forms in the source retag
without changing content; the transaction types live outside the block
module). -/
structure Tx where
  payload : Nat
deriving DecidableEq, Repr

/-- Modelled from the spec: the deterministic content hash of a transaction,
shared by every transaction form. -/
def Tx.hash (t : Tx) : Hash := t.payload

/-- Modelled from the spec: pipeline event recommendations ride along in the
block body and are never inspected by the block lifecycle itself. -/
structure Event where
  payload : Nat
deriving DecidableEq, Repr

/-- Modelled from the spec: descriptor of the initial peer set; opaque to
the block core. -/
structure Topology where
  peers : List Nat
deriving DecidableEq, Repr

/-- Modelled from the spec: one signature, keyed by signer identity. -/
structure Signature where
  signer : Nat
  payload : Nat
deriving DecidableEq, Repr

/-- Modelled from the spec: SignaturesOf, the signature set of a block. The
Rust type carries a phantom block-state tag and transmute only changes that
tag, keeping the content, so the embedding keeps the content alone. -/
abbrev SignaturesOf := List Signature

/-- Modelled from the spec: the Merkle root of a sequence of hashes
(MerkleTree::hash in the source returns None for the empty tree). The
construction is deterministic; only determinism is consumed by the core. -/
def merkleRoot : List Hash → Option Hash
  | [] => none
  | hs => some (hs.foldl (fun acc h => acc * 1000003 + h + 1) 1)

/-- The pattern merkle.hash().unwrap_or(Hash::zeroed().typed()) from the
source: the Merkle root with the zero hash for the empty sequence. -/
def merkleRootOrZero (hs : List Hash) : Hash := (merkleRoot hs).getD Hash.zeroed

/-- Modelled from the spec: default block time, from the configuration crate
which is outside the translated source; the concrete value is opaque to the
block core. -/
def DEFAULT_BLOCK_TIME_MS : Nat := 2000

/-- Modelled from the spec: default commit time limit, from the
configuration crate which is outside the translated source. -/
def DEFAULT_COMMIT_TIME_LIMIT_MS : Nat := 4000

/-- DEFAULT_CONSENSUS_ESTIMATION_MS in the source. -/
def DEFAULT_CONSENSUS_ESTIMATION_MS : Nat :=
  DEFAULT_BLOCK_TIME_MS + DEFAULT_COMMIT_TIME_LIMIT_MS / 2

/-- BlockHeader in the source: the sole byte-basis of a block hash. -/
structure BlockHeader where
  timestamp : Nat
  consensus_estimation : Nat
  height : Nat
  previous_block_hash : Hash
  transactions_hash : Hash
  rejected_transactions_hash : Hash
  genesis_topology : Option Topology
deriving DecidableEq, Repr

/-- BlockHeader::is_genesis in the source. -/
def BlockHeader.is_genesis (h : BlockHeader) : Bool := h.height == 1

/-- Modelled from the spec: the deterministic canonical byte encoding of the
header, represented positionally. -/
def BlockHeader.encode (h : BlockHeader) : List Nat :=
  [h.timestamp, h.consensus_estimation, h.height, h.previous_block_hash,
   h.transactions_hash, h.rejected_transactions_hash] ++
    (match h.genesis_topology with
     | none => [0]
     | some t => 1 :: t.peers)

/-- Modelled from the spec: HashOf::new(&self.header), the hash of the
canonical header encoding; deterministic and consumed only through
determinism. -/
def headerHash (h : BlockHeader) : Hash :=
  h.encode.foldl (fun acc x => acc * 1000003 + x + 1) 7

/-- Modelled from the spec: the read-only world-state view, consumed by the
block core only through is_in_blockchain on a transaction hash. -/
structure WorldStateView where
  isInBlockchain : Hash → Bool

/-- The is_in_blockchain query on a transaction (modelled from the spec; the
transaction module is outside the translated source): membership is by
transaction hash. -/
def Tx.is_in_blockchain (t : Tx) (wsv : WorldStateView) : Bool :=
  wsv.isInBlockchain t.hash

/-- Modelled from the spec: the transaction validator collaborator. admits
models AcceptedTransaction::from_transaction against the transaction limits;
accepts models validate(tx, is_genesis, wsv), whose verdict partitions
transactions (per the spec the transaction itself is kept on both sides of
the partition, only its tag changes). -/
structure TransactionValidator where
  admits : Tx → Bool
  accepts : Tx → Bool → WorldStateView → Bool

/-- PendingBlock in the source: the first stage of a block life-cycle. -/
structure PendingBlock where
  timestamp : Nat
  transactions : List Tx
  event_recommendations : List Event
deriving DecidableEq, Repr

/-- ChainedBlock in the source. -/
structure ChainedBlock where
  header : BlockHeader
  transactions : List Tx
  event_recommendations : List Event
deriving DecidableEq, Repr

/-- PendingBlock::chain in the source: header height becomes height + 1 (u64
arithmetic), the previous block hash is taken from the argument, both Merkle
roots start zeroed and no genesis topology is set. -/
def PendingBlock.chain (self : PendingBlock) (height : Nat)
    (previous_block_hash : Hash) : ChainedBlock :=
  { transactions := self.transactions
    event_recommendations := self.event_recommendations
    header :=
      { timestamp := self.timestamp
        consensus_estimation := DEFAULT_CONSENSUS_ESTIMATION_MS
        height := (height + 1) % U64
        previous_block_hash := previous_block_hash
        transactions_hash := Hash.zeroed
        rejected_transactions_hash := Hash.zeroed
        genesis_topology := none } }

/-- PendingBlock::chain_first_with_genesis_topology in the source: height 1,
zero previous hash, the supplied topology. -/
def PendingBlock.chain_first_with_genesis_topology (self : PendingBlock)
    (genesis_topology : Topology) : ChainedBlock :=
  { transactions := self.transactions
    event_recommendations := self.event_recommendations
    header :=
      { timestamp := self.timestamp
        consensus_estimation := DEFAULT_CONSENSUS_ESTIMATION_MS
        height := 1
        previous_block_hash := Hash.zeroed
        transactions_hash := Hash.zeroed
        rejected_transactions_hash := Hash.zeroed
        genesis_topology := some genesis_topology } }

/-- PendingBlock::chain_first in the source: height 1, zero previous hash,
no topology. -/
def PendingBlock.chain_first (self : PendingBlock) : ChainedBlock :=
  { transactions := self.transactions
    event_recommendations := self.event_recommendations
    header :=
      { timestamp := self.timestamp
        consensus_estimation := DEFAULT_CONSENSUS_ESTIMATION_MS
        height := 1
        previous_block_hash := Hash.zeroed
        transactions_hash := Hash.zeroed
        rejected_transactions_hash := Hash.zeroed
        genesis_topology := none } }

/-- ValidBlock in the source. -/
structure ValidBlock where
  header : BlockHeader
  rejected_transactions : List Tx
  transactions : List Tx
  event_recommendations : List Event
deriving DecidableEq, Repr

/-- ChainedBlock::validate in the source: each transaction is sent to the
validator with the is_genesis flag; the verdicts partition the list in input
order into accepted and rejected, then both Merkle roots in the header are
recomputed over the element hashes; every other header field is kept. -/
def ChainedBlock.validate (self : ChainedBlock) (tv : TransactionValidator)
    (wsv : WorldStateView) : ValidBlock :=
  let part := self.transactions.partition
    (fun tx => tv.accepts tx self.header.is_genesis wsv)
  { header :=
      { self.header with
        transactions_hash := merkleRootOrZero (part.1.map Tx.hash)
        rejected_transactions_hash := merkleRootOrZero (part.2.map Tx.hash) }
    rejected_transactions := part.2
    transactions := part.1
    event_recommendations := self.event_recommendations }

/-- ChainedBlock::hash in the source: the header hash, retyped. -/
def ChainedBlock.hash (self : ChainedBlock) : Hash := headerHash self.header

/-- ValidBlock::hash in the source: the header hash, retyped. -/
def ValidBlock.hash (self : ValidBlock) : Hash := headerHash self.header

/-- ValidSignedBlock in the source. -/
structure ValidSignedBlock where
  header : BlockHeader
  rejected_transactions : List Tx
  transactions : List Tx
  signatures : SignaturesOf
  event_recommendations : List Event
deriving DecidableEq, Repr

/-- ValidSignedBlock::hash in the source: the header hash, retyped. -/
def ValidSignedBlock.hash (self : ValidSignedBlock) : Hash := headerHash self.header

/-- CommittedBlock in the source. -/
structure CommittedBlock where
  header : BlockHeader
  rejected_transactions : List Tx
  transactions : List Tx
  event_recommendations : List Event
  signatures : SignaturesOf
deriving DecidableEq, Repr

/-- ValidSignedBlock::commit in the source: a pure retag; every field moves
across unchanged and the signature set is only transmuted (content kept). -/
def ValidSignedBlock.commit (self : ValidSignedBlock) : CommittedBlock :=
  { event_recommendations := self.event_recommendations
    header := self.header
    rejected_transactions := self.rejected_transactions
    transactions := self.transactions
    signatures := self.signatures }

/-- CommittedBlock::hash in the source: the header hash, retyped. -/
def CommittedBlock.hash (self : CommittedBlock) : Hash := headerHash self.header

/-- CandidateBlock in the source: the wire form; both transaction lists are
carried in signed form. -/
structure CandidateBlock where
  header : BlockHeader
  rejected_transactions : List Tx
  transactions : List Tx
  signatures : SignaturesOf
  event_recommendations : List Event
deriving DecidableEq, Repr

/-- CandidateBlock::hash in the source: the header hash, retyped. -/
def CandidateBlock.hash (self : CandidateBlock) : Hash := headerHash self.header

/-- CandidateBlock::is_empty in the source. -/
def CandidateBlock.is_empty (self : CandidateBlock) : Bool :=
  self.transactions.isEmpty && self.rejected_transactions.isEmpty

/-- CandidateBlock::has_committed_transactions in the source. -/
def CandidateBlock.has_committed_transactions (self : CandidateBlock)
    (wsv : WorldStateView) : Bool :=
  self.transactions.any (fun tx => tx.is_in_blockchain wsv) ||
    self.rejected_transactions.any (fun tx => tx.is_in_blockchain wsv)

/-- The From implementation ValidSignedBlock to CandidateBlock in the
source: the header moves unchanged, both transaction lists are converted
element by element to signed form (content-preserving) and the signature set
is transmuted. -/
def ValidSignedBlock.toCandidate (b : ValidSignedBlock) : CandidateBlock :=
  { header := b.header
    rejected_transactions := b.rejected_transactions.map (fun tx => tx)
    transactions := b.transactions.map (fun tx => tx)
    signatures := b.signatures
    event_recommendations := b.event_recommendations }

/-- The From implementation CommittedBlock to CandidateBlock in the source:
the header moves unchanged, both transaction lists are converted element by
element to signed form (content-preserving) and the signature set is
transmuted. -/
def CommittedBlock.toCandidate (b : CommittedBlock) : CandidateBlock :=
  { header := b.header
    rejected_transactions := b.rejected_transactions.map (fun tx => tx)
    transactions := b.transactions.map (fun tx => tx)
    signatures := b.signatures
    event_recommendations := b.event_recommendations }

/-- Error kinds raised by CandidateBlock::revalidate; the source raises eyre
reports, and the kinds with their expected/actual context follow its bail
sites one for one. -/
inductive RevalidationError where
  | emptyBlock
  | alreadyCommitted
  | prevHashMismatch (expected actual : Hash)
  | heightMismatch (expected actual : Nat)
  | txRootMismatch
  | rejectedRootMismatch
  | acceptedTxAdmissionFailed
  | acceptedTxRejected
  | rejectedTxAdmissionFailed
  | rejectedTxClean
deriving DecidableEq, Repr

/-- The accepted-list pass of CandidateBlock::revalidate: each transaction
is re-admitted against the limits and then re-validated; the try_fold of the
source stops at the first failure. -/
def revalidateAccepted (tv : TransactionValidator) (wsv : WorldStateView)
    (g : Bool) : List Tx → Except RevalidationError (List Tx)
  | [] => Except.ok []
  | tx :: rest =>
    if !(tv.admits tx) then Except.error RevalidationError.acceptedTxAdmissionFailed
    else if !(tv.accepts tx g wsv) then Except.error RevalidationError.acceptedTxRejected
    else (revalidateAccepted tv wsv g rest).map (fun l => tx :: l)

/-- The rejected-list pass of CandidateBlock::revalidate: each transaction
is re-admitted and re-validated and must be rejected again; a clean verdict
is an error, and the try_fold of the source stops at the first failure. -/
def revalidateRejected (tv : TransactionValidator) (wsv : WorldStateView)
    (g : Bool) : List Tx → Except RevalidationError (List Tx)
  | [] => Except.ok []
  | tx :: rest =>
    if !(tv.admits tx) then Except.error RevalidationError.rejectedTxAdmissionFailed
    else if tv.accepts tx g wsv then Except.error RevalidationError.rejectedTxClean
    else (revalidateRejected tv wsv g rest).map (fun l => tx :: l)

/-- CandidateBlock::revalidate in the source: the checks in program order —
emptiness, replay guard, previous-hash continuity, height continuity (u64
arithmetic on block_height + 1), both Merkle roots, then the two
transaction passes; on success the block is rebuilt with the same header,
the revalidated lists, the same event recommendations and the transmuted
signature set. -/
def CandidateBlock.revalidate (self : CandidateBlock)
    (tv : TransactionValidator) (wsv : WorldStateView)
    (latest_block : Hash) (block_height : Nat) :
    Except RevalidationError ValidSignedBlock :=
  if self.is_empty then Except.error RevalidationError.emptyBlock
  else if self.has_committed_transactions wsv then
    Except.error RevalidationError.alreadyCommitted
  else if latest_block != self.header.previous_block_hash then
    Except.error
      (RevalidationError.prevHashMismatch latest_block self.header.previous_block_hash)
  else if (block_height + 1) % U64 != self.header.height then
    Except.error
      (RevalidationError.heightMismatch ((block_height + 1) % U64) self.header.height)
  else if merkleRootOrZero (self.transactions.map Tx.hash) != self.header.transactions_hash then
    Except.error RevalidationError.txRootMismatch
  else if merkleRootOrZero (self.rejected_transactions.map Tx.hash)
      != self.header.rejected_transactions_hash then
    Except.error RevalidationError.rejectedRootMismatch
  else
    match revalidateAccepted tv wsv self.header.is_genesis self.transactions with
    | Except.error e => Except.error e
    | Except.ok txs =>
      match revalidateRejected tv wsv self.header.is_genesis self.rejected_transactions with
      | Except.error e => Except.error e
      | Except.ok rejected =>
        Except.ok
          { header := self.header
            transactions := txs
            rejected_transactions := rejected
            event_recommendations := self.event_recommendations
            signatures := self.signatures }

/-- Chain in the source: a map from height to committed block (a DashMap in
the source, a key-value list here; insert overwrites an existing key). -/
structure Chain where
  blocks : List (Nat × CommittedBlock)
deriving DecidableEq, Repr

/-- Chain::new in the source. -/
def Chain.new : Chain := ⟨[]⟩

/-- Chain::len in the source: the number of entries. -/
def Chain.len (c : Chain) : Nat := c.blocks.length

/-- The DashMap get by height key. -/
def Chain.get (c : Chain) (height : Nat) : Option CommittedBlock :=
  (c.blocks.find? (fun p => p.1 == height)).map Prod.snd

/-- Chain::push in the source: insert at key block.header.height,
overwriting any existing entry at that key. -/
def Chain.push (c : Chain) (block : CommittedBlock) : Chain :=
  ⟨(block.header.height, block) ::
    c.blocks.filter (fun p => p.1 != block.header.height)⟩

/-- Chain::latest_block in the source: the entry at key len(). -/
def Chain.latest_block (c : Chain) : Option CommittedBlock := c.get c.len

/-- ChainIterator in the source: inclusive front and back positions. The
Rust iterator borrows the live chain, so every operation below takes the
current chain as an argument; only the positions are state of the
iterator. -/
structure ChainIterator where
  pos_front : Nat
  pos_back : Nat
deriving DecidableEq, Repr

/-- ChainIterator::new in the source: front position 1, back position the
chain length at creation. -/
def ChainIterator.new (chain : Chain) : ChainIterator := ⟨1, chain.len⟩

/-- ChainIterator::is_exhausted in the source. -/
def ChainIterator.is_exhausted (it : ChainIterator) : Bool :=
  it.pos_back < it.pos_front

/-- Iterator::next for ChainIterator in the source: read the front key from
the live chain, then advance the front position (checked u64 increment). -/
def ChainIterator.next (it : ChainIterator) (chain : Chain) :
    Option (Option CommittedBlock × ChainIterator) :=
  if it.is_exhausted then some (none, it)
  else (checkedAdd it.pos_front 1).map
    (fun pf => (chain.get it.pos_front, { it with pos_front := pf }))

/-- Iterator::nth for ChainIterator in the source: add n to the front
position with no bound check, then step. -/
def ChainIterator.nth (it : ChainIterator) (chain : Chain) (n : Nat) :
    Option (Option CommittedBlock × ChainIterator) :=
  (checkedAdd it.pos_front n).bind
    (fun pf => ChainIterator.next { it with pos_front := pf } chain)

/-- Iterator::last for ChainIterator in the source: set the front position
to the current chain length and read that key directly (no exhaustion
check, live length). -/
def ChainIterator.last (_it : ChainIterator) (chain : Chain) :
    Option CommittedBlock :=
  chain.get chain.len

/-- Iterator::count for ChainIterator in the source: the live chain length
minus (pos_front - 1), in u64 arithmetic. -/
def ChainIterator.count (it : ChainIterator) (chain : Chain) : Option Nat :=
  (checkedSub it.pos_front 1).bind (fun p => checkedSub chain.len p)

/-- Iterator::size_hint for ChainIterator in the source: the same quantity
as count, given twice. -/
def ChainIterator.size_hint (it : ChainIterator) (chain : Chain) :
    Option (Nat × Nat) :=
  ((checkedSub it.pos_front 1).bind (fun p => checkedSub chain.len p)).map
    (fun n => (n, n))

/-- DoubleEndedIterator::next_back for ChainIterator in the source: read the
back key from the live chain, then retreat the back position (checked u64
decrement). -/
def ChainIterator.next_back (it : ChainIterator) (chain : Chain) :
    Option (Option CommittedBlock × ChainIterator) :=
  if it.is_exhausted then some (none, it)
  else (checkedSub it.pos_back 1).map
    (fun pb => (chain.get it.pos_back, { it with pos_back := pb }))

/-- DoubleEndedIterator::nth_back for ChainIterator in the source: subtract
n from the back position with no bound check, then step back. -/
def ChainIterator.nth_back (it : ChainIterator) (chain : Chain) (n : Nat) :
    Option (Option CommittedBlock × ChainIterator) :=
  (checkedSub it.pos_back n).bind
    (fun pb => ChainIterator.next_back { it with pos_back := pb } chain)

/-- Modelled from the Rust core library: the Skip adapter count, which is
what iter().skip(k).count() runs — for positive k first advance with
nth(k - 1) and return 0 if that yields nothing, then count the rest. -/
def ChainIterator.skipCount (it : ChainIterator) (chain : Chain) (k : Nat) :
    Option Nat :=
  if k = 0 then it.count chain
  else
    match it.nth chain (k - 1) with
    | none => none
    | some (none, _) => some 0
    | some (some _, it2) => it2.count chain

/-! Helper lemmas shared by the claim theorems. -/

theorem length_filter_add_length_filter_not (p : Tx → Bool) (l : List Tx) :
    (l.filter p).length + (l.filter (fun x => !(p x))).length = l.length := by
  induction l with
  | nil => rfl
  | cons x xs ih =>
    by_cases h : p x = true <;> simp [List.filter_cons, h, ← ih] <;> omega

/-! Concrete fixtures used by witnesses and counterexamples. -/

/-- Fixture header. -/
def cHeader : BlockHeader :=
  { timestamp := 3
    consensus_estimation := 4
    height := 1
    previous_block_hash := 0
    transactions_hash := 0
    rejected_transactions_hash := 0
    genesis_topology := none }

/-- Fixture signature. -/
def cSig : Signature := { signer := 1, payload := 2 }

/-- Fixture transaction with even payload (accepted by cTv). -/
def cTx0 : Tx := ⟨4⟩

/-- Fixture transaction with odd payload (rejected by cTv). -/
def cTx1 : Tx := ⟨5⟩

/-- Fixture validator: admits everything, accepts even payloads. -/
def cTv : TransactionValidator :=
  { admits := fun _ => true
    accepts := fun tx _ _ => tx.payload % 2 == 0 }

/-- Fixture world state with an empty blockchain. -/
def cWsv : WorldStateView := { isInBlockchain := fun _ => false }

/-- Fixture signed block. -/
def cValidSigned : ValidSignedBlock :=
  { header := cHeader
    rejected_transactions := [cTx1]
    transactions := [cTx0]
    signatures := [cSig]
    event_recommendations := [⟨9⟩] }

/-- Fixture valid block sharing the fixture header. -/
def cValid : ValidBlock :=
  { header := cHeader
    rejected_transactions := []
    transactions := []
    event_recommendations := [] }

/-- Fixture committed block at height 1. -/
def cCommitted1 : CommittedBlock :=
  { header := cHeader
    rejected_transactions := []
    transactions := []
    event_recommendations := []
    signatures := [cSig] }

/-- Fixture chained block with one accepted and one rejected transaction. -/
def cChained : ChainedBlock :=
  { header := cHeader
    transactions := [cTx0, cTx1]
    event_recommendations := [] }

/-- Fixture chained block whose single transaction gets rejected. -/
def cChainedRejAll : ChainedBlock :=
  { header := cHeader
    transactions := [cTx1]
    event_recommendations := [] }

/-! Claim theorems. -/

/-- C1: ValidSignedBlock::commit is a pure retag — the committed block
carries exactly the header, transactions, rejected transactions, event
recommendations and signature content of its input (only the signature set
type tag changes) — and since every block hash is the hash of the header
encoding alone, hash(commit b) is byte-identical to hash(b), and the hashes
of the Valid, ValidSigned and Committed forms of one block (same header) are
all equal. -/
theorem commit_retag_hash_stability (b : ValidSignedBlock) (v : ValidBlock)
    (c : CommittedBlock) (hv : v.header = b.header) (hc : c.header = b.header) :
    b.commit.header = b.header ∧
    b.commit.transactions = b.transactions ∧
    b.commit.rejected_transactions = b.rejected_transactions ∧
    b.commit.event_recommendations = b.event_recommendations ∧
    b.commit.signatures = b.signatures ∧
    b.commit.hash = b.hash ∧
    v.hash = b.hash ∧
    c.hash = b.hash := by
  refine ⟨rfl, rfl, rfl, rfl, rfl, rfl, ?_, ?_⟩ <;>
    simp [ValidBlock.hash, ValidSignedBlock.hash, CommittedBlock.hash, hv, hc]

/-- Witness for C1 at concrete blocks sharing one header. -/
theorem commit_retag_hash_stability_witness :
    cValidSigned.commit.hash = cValidSigned.hash ∧
    cValid.hash = cValidSigned.hash ∧
    cCommitted1.hash = cValidSigned.hash :=
  have h := commit_retag_hash_stability cValidSigned cValid cCommitted1 rfl rfl
  ⟨h.2.2.2.2.2.1, h.2.2.2.2.2.2⟩

/-- C9: the conversions of ValidSigned and Committed blocks to the Candidate
wire form copy the header field unchanged (only the transaction lists are
retagged to signed form and the signatures transmuted), so the candidate
hash bytes equal the source block hash bytes. -/
theorem candidate_retag_hash (b : ValidSignedBlock) (c : CommittedBlock) :
    b.toCandidate.header = b.header ∧
    b.toCandidate.transactions = b.transactions ∧
    b.toCandidate.rejected_transactions = b.rejected_transactions ∧
    b.toCandidate.signatures = b.signatures ∧
    b.toCandidate.hash = b.hash ∧
    c.toCandidate.header = c.header ∧
    c.toCandidate.transactions = c.transactions ∧
    c.toCandidate.rejected_transactions = c.rejected_transactions ∧
    c.toCandidate.signatures = c.signatures ∧
    c.toCandidate.hash = c.hash := by
  simp [ValidSignedBlock.toCandidate, CommittedBlock.toCandidate,
    CandidateBlock.hash, ValidSignedBlock.hash, CommittedBlock.hash]

/-- C3: ChainedBlock::validate partitions the input transactions into
accepted and rejected in input order (the two filters of the partition), sets
each Merkle-root header field from the corresponding output list (the zero
hash when that list is empty) and leaves every other header field
unchanged. -/
theorem validate_partition_and_roots (b : ChainedBlock)
    (tv : TransactionValidator) (wsv : WorldStateView) :
    (b.validate tv wsv).transactions
        = b.transactions.filter (fun tx => tv.accepts tx b.header.is_genesis wsv) ∧
    (b.validate tv wsv).rejected_transactions
        = b.transactions.filter (fun tx => !(tv.accepts tx b.header.is_genesis wsv)) ∧
    (b.validate tv wsv).header.transactions_hash
        = merkleRootOrZero (((b.validate tv wsv).transactions).map Tx.hash) ∧
    (b.validate tv wsv).header.rejected_transactions_hash
        = merkleRootOrZero (((b.validate tv wsv).rejected_transactions).map Tx.hash) ∧
    ((b.validate tv wsv).transactions = [] →
      (b.validate tv wsv).header.transactions_hash = Hash.zeroed) ∧
    ((b.validate tv wsv).rejected_transactions = [] →
      (b.validate tv wsv).header.rejected_transactions_hash = Hash.zeroed) ∧
    (b.validate tv wsv).header.timestamp = b.header.timestamp ∧
    (b.validate tv wsv).header.consensus_estimation = b.header.consensus_estimation ∧
    (b.validate tv wsv).header.height = b.header.height ∧
    (b.validate tv wsv).header.previous_block_hash = b.header.previous_block_hash ∧
    (b.validate tv wsv).header.genesis_topology = b.header.genesis_topology := by
  simp only [ChainedBlock.validate, List.partition_eq_filter_filter, Function.comp_def]
  refine ⟨trivial, trivial, trivial, trivial, ?_, ?_, trivial, trivial, trivial,
    trivial, trivial⟩ <;> (intro h; rw [h]; rfl)

/-- Witness for C3: with the single transaction rejected, the accepted list
is empty and the accepted Merkle root is the zero hash. -/
theorem validate_partition_and_roots_witness :
    (cChainedRejAll.validate cTv cWsv).transactions = [] ∧
    (cChainedRejAll.validate cTv cWsv).header.transactions_hash = Hash.zeroed := by
  have h := validate_partition_and_roots cChainedRejAll cTv cWsv
  have h0 : (cChainedRejAll.validate cTv cWsv).transactions = [] := by decide
  exact ⟨h0, h.2.2.2.2.1 h0⟩

/-- C8: ChainedBlock::validate is infallible at block level: it always
produces a ValidBlock (it is a total function in this embedding, mirroring
its Rust type, which has no error result), every input transaction is placed
in exactly one of the two output lists, every output transaction comes from
the input, and the output list lengths sum to the input length. -/
theorem validate_infallible_partition (b : ChainedBlock)
    (tv : TransactionValidator) (wsv : WorldStateView) :
    (b.validate tv wsv).transactions.length
        + (b.validate tv wsv).rejected_transactions.length
      = b.transactions.length ∧
    (∀ tx ∈ b.transactions,
      (tx ∈ (b.validate tv wsv).transactions
          ∧ tx ∉ (b.validate tv wsv).rejected_transactions)
        ∨ (tx ∉ (b.validate tv wsv).transactions
          ∧ tx ∈ (b.validate tv wsv).rejected_transactions)) ∧
    (∀ tx, tx ∈ (b.validate tv wsv).transactions → tx ∈ b.transactions) ∧
    (∀ tx, tx ∈ (b.validate tv wsv).rejected_transactions → tx ∈ b.transactions) := by
  simp only [ChainedBlock.validate, List.partition_eq_filter_filter, Function.comp_def]
  refine ⟨length_filter_add_length_filter_not _ _, ?_, ?_, ?_⟩
  · intro tx hmem
    by_cases h : tv.accepts tx b.header.is_genesis wsv = true
    · refine Or.inl ⟨List.mem_filter.2 ⟨hmem, h⟩, ?_⟩
      intro hc
      have h2 := (List.mem_filter.1 hc).2
      simp [h] at h2
    · refine Or.inr ⟨?_, List.mem_filter.2 ⟨hmem, by simp [h]⟩⟩
      intro hc
      exact h (List.mem_filter.1 hc).2
  · intro tx hmem
    exact (List.mem_filter.1 hmem).1
  · intro tx hmem
    exact (List.mem_filter.1 hmem).1

/-- Witness for C8: the fixture transaction lands in one of the two output
lists of the fixture block. -/
theorem validate_infallible_partition_witness :
    cTx0 ∈ (cChained.validate cTv cWsv).transactions ∨
      cTx0 ∈ (cChained.validate cTv cWsv).rejected_transactions := by
  have h := validate_infallible_partition cChained cTv cWsv
  rcases h.2.1 cTx0 (by decide) with h1 | h1
  · exact Or.inl h1.1
  · exact Or.inr h1.2

/-! The C2 refinement apparatus: a declarative restatement of revalidate
written from the claim wording, and the lemmas connecting it to the
translated source definition. -/

/-- Defined from the claim wording for C2 (not from the source): the error
of the accepted-list check is determined by the first transaction failing
re-admission or re-validation. -/
def acceptedCheckError (tv : TransactionValidator) (wsv : WorldStateView)
    (g : Bool) (l : List Tx) : Option RevalidationError :=
  (l.find? (fun tx => !(tv.admits tx && tv.accepts tx g wsv))).map
    (fun tx =>
      if tv.admits tx then RevalidationError.acceptedTxRejected
      else RevalidationError.acceptedTxAdmissionFailed)

/-- Defined from the claim wording for C2 (not from the source): the error
of the rejected-list check is determined by the first transaction failing
re-admission or re-validating clean. -/
def rejectedCheckError (tv : TransactionValidator) (wsv : WorldStateView)
    (g : Bool) (l : List Tx) : Option RevalidationError :=
  (l.find? (fun tx => !(tv.admits tx && !(tv.accepts tx g wsv)))).map
    (fun tx =>
      if tv.admits tx then RevalidationError.rejectedTxClean
      else RevalidationError.rejectedTxAdmissionFailed)

/-- Defined from the claim wording for C2 (not from the source): perform the
seven checks in the stated order and return the error of the first failing
check; when all pass, return the candidate as a ValidSigned block with both
transaction lists, the header, the event recommendations and the signature
content unchanged. -/
def revalidateSpec (self : CandidateBlock) (tv : TransactionValidator)
    (wsv : WorldStateView) (latest_block : Hash) (block_height : Nat) :
    Except RevalidationError ValidSignedBlock :=
  if self.transactions.isEmpty && self.rejected_transactions.isEmpty then
    Except.error RevalidationError.emptyBlock
  else if (self.transactions ++ self.rejected_transactions).any
      (fun tx => tx.is_in_blockchain wsv) then
    Except.error RevalidationError.alreadyCommitted
  else if latest_block != self.header.previous_block_hash then
    Except.error
      (RevalidationError.prevHashMismatch latest_block self.header.previous_block_hash)
  else if (block_height + 1) % U64 != self.header.height then
    Except.error
      (RevalidationError.heightMismatch ((block_height + 1) % U64) self.header.height)
  else if merkleRootOrZero (self.transactions.map Tx.hash) != self.header.transactions_hash then
    Except.error RevalidationError.txRootMismatch
  else if merkleRootOrZero (self.rejected_transactions.map Tx.hash)
      != self.header.rejected_transactions_hash then
    Except.error RevalidationError.rejectedRootMismatch
  else
    match acceptedCheckError tv wsv self.header.is_genesis self.transactions with
    | some e => Except.error e
    | none =>
      match rejectedCheckError tv wsv self.header.is_genesis self.rejected_transactions with
      | some e => Except.error e
      | none =>
        Except.ok
          { header := self.header
            transactions := self.transactions
            rejected_transactions := self.rejected_transactions
            event_recommendations := self.event_recommendations
            signatures := self.signatures }

/-- Defined from the claim wording for C2: the seven revalidation checks
stated declaratively. -/
def RevalidateChecksPass (self : CandidateBlock) (tv : TransactionValidator)
    (wsv : WorldStateView) (latest_block : Hash) (block_height : Nat) : Prop :=
  (¬(self.transactions = [] ∧ self.rejected_transactions = [])) ∧
  (∀ tx ∈ self.transactions ++ self.rejected_transactions,
    tx.is_in_blockchain wsv = false) ∧
  self.header.previous_block_hash = latest_block ∧
  self.header.height = (block_height + 1) % U64 ∧
  merkleRootOrZero (self.transactions.map Tx.hash) = self.header.transactions_hash ∧
  merkleRootOrZero (self.rejected_transactions.map Tx.hash)
      = self.header.rejected_transactions_hash ∧
  (∀ tx ∈ self.transactions,
    tv.admits tx = true ∧ tv.accepts tx self.header.is_genesis wsv = true) ∧
  (∀ tx ∈ self.rejected_transactions,
    tv.admits tx = true ∧ tv.accepts tx self.header.is_genesis wsv = false)

theorem revalidateAccepted_eq_find (tv : TransactionValidator)
    (wsv : WorldStateView) (g : Bool) (l : List Tx) :
    revalidateAccepted tv wsv g l =
      match l.find? (fun tx => !(tv.admits tx && tv.accepts tx g wsv)) with
      | none => Except.ok l
      | some tx =>
        Except.error
          (if tv.admits tx then RevalidationError.acceptedTxRejected
            else RevalidationError.acceptedTxAdmissionFailed) := by
  induction l with
  | nil => rfl
  | cons tx rest ih =>
    by_cases ha : tv.admits tx = true
    · by_cases hv : tv.accepts tx g wsv = true
      · rw [List.find?_cons_of_neg _ (by simp [ha, hv])]
        simp only [revalidateAccepted, ha, hv, Bool.not_true, Bool.false_eq_true,
          if_false, ih]
        cases hfind : rest.find? (fun tx => !(tv.admits tx && tv.accepts tx g wsv)) <;>
          simp [Except.map]
      · rw [List.find?_cons_of_pos _ (by simp [ha, hv])]
        simp [revalidateAccepted, ha, hv]
    · rw [List.find?_cons_of_pos _ (by simp [ha])]
      simp [revalidateAccepted, ha]

theorem revalidateRejected_eq_find (tv : TransactionValidator)
    (wsv : WorldStateView) (g : Bool) (l : List Tx) :
    revalidateRejected tv wsv g l =
      match l.find? (fun tx => !(tv.admits tx && !(tv.accepts tx g wsv))) with
      | none => Except.ok l
      | some tx =>
        Except.error
          (if tv.admits tx then RevalidationError.rejectedTxClean
            else RevalidationError.rejectedTxAdmissionFailed) := by
  induction l with
  | nil => rfl
  | cons tx rest ih =>
    by_cases ha : tv.admits tx = true
    · by_cases hv : tv.accepts tx g wsv = true
      · rw [List.find?_cons_of_pos _ (by simp [ha, hv])]
        simp [revalidateRejected, ha, hv]
      · rw [List.find?_cons_of_neg _ (by simp [ha, hv])]
        simp only [revalidateRejected, ha, hv, Bool.false_eq_true, if_false, ih]
        cases hfind : rest.find? (fun tx => !(tv.admits tx && !(tv.accepts tx g wsv))) <;>
          simp [Except.map]
    · rw [List.find?_cons_of_pos _ (by simp [ha])]
      simp [revalidateRejected, ha]

theorem revalidate_eq_spec (self : CandidateBlock) (tv : TransactionValidator)
    (wsv : WorldStateView) (latest_block : Hash) (block_height : Nat) :
    self.revalidate tv wsv latest_block block_height =
      revalidateSpec self tv wsv latest_block block_height := by
  simp only [CandidateBlock.revalidate, revalidateSpec, CandidateBlock.is_empty,
    CandidateBlock.has_committed_transactions, List.any_append,
    revalidateAccepted_eq_find, revalidateRejected_eq_find,
    acceptedCheckError, rejectedCheckError]
  cases hfa : self.transactions.find?
      (fun tx => !(tv.admits tx && tv.accepts tx self.header.is_genesis wsv)) <;>
    cases hfr : self.rejected_transactions.find?
        (fun tx => !(tv.admits tx && !(tv.accepts tx self.header.is_genesis wsv))) <;>
      simp [Option.map]

theorem revalidateSpec_ok_iff (self : CandidateBlock) (tv : TransactionValidator)
    (wsv : WorldStateView) (latest_block : Hash) (block_height : Nat) :
    (∃ vb, revalidateSpec self tv wsv latest_block block_height = Except.ok vb) ↔
      RevalidateChecksPass self tv wsv latest_block block_height := by
  constructor
  · rintro ⟨vb, hvb⟩
    unfold revalidateSpec at hvb
    split_ifs at hvb with h1 h2 h3 h4 h5 h6
    rcases hfa : acceptedCheckError tv wsv self.header.is_genesis self.transactions
      with _ | e
    · rcases hfr : rejectedCheckError tv wsv self.header.is_genesis
          self.rejected_transactions with _ | e2
      · refine ⟨?_, ?_, ?_, ?_, ?_, ?_, ?_, ?_⟩
        · intro hab
          exact h1 (by simp [hab.1, hab.2])
        · intro tx hm
          by_contra hmem
          exact h2 (List.any_eq_true.2 ⟨tx, hm, by simpa using hmem⟩)
        · simp only [bne_iff_ne, ne_eq, not_not] at h3
          exact h3.symm
        · simp only [bne_iff_ne, ne_eq, not_not] at h4
          exact h4.symm
        · simpa only [bne_iff_ne, ne_eq, not_not] using h5
        · simpa only [bne_iff_ne, ne_eq, not_not] using h6
        · intro tx hm
          have hfind : self.transactions.find?
              (fun tx => !(tv.admits tx && tv.accepts tx self.header.is_genesis wsv))
                = none := by
            simpa [acceptedCheckError] using hfa
          have h7 := List.find?_eq_none.1 hfind tx hm
          simpa using h7
        · intro tx hm
          have hfind : self.rejected_transactions.find?
              (fun tx => !(tv.admits tx && !(tv.accepts tx self.header.is_genesis wsv)))
                = none := by
            simpa [rejectedCheckError] using hfr
          have h8 := List.find?_eq_none.1 hfind tx hm
          simpa using h8
      · rw [hfa, hfr] at hvb
        simp at hvb
    · rw [hfa] at hvb
      simp at hvb
  · rintro ⟨hne, hfresh, hprev, hheight, hroot1, hroot2, hacc, hrej⟩
    have g1 : ¬((self.transactions.isEmpty && self.rejected_transactions.isEmpty) = true) := by
      intro hcontra
      rw [Bool.and_eq_true] at hcontra
      exact hne ⟨by simpa using hcontra.1, by simpa using hcontra.2⟩
    have g2 : ¬(((self.transactions ++ self.rejected_transactions).any
        (fun tx => tx.is_in_blockchain wsv)) = true) := by
      intro hcontra
      obtain ⟨tx, hm, hp⟩ := List.any_eq_true.1 hcontra
      rw [hfresh tx hm] at hp
      cases hp
    have g3 : ¬((latest_block != self.header.previous_block_hash) = true) := by
      simp [bne_iff_ne, hprev]
    have g4 : ¬(((block_height + 1) % U64 != self.header.height) = true) := by
      simp [bne_iff_ne, hheight]
    have g5 : ¬((merkleRootOrZero (self.transactions.map Tx.hash)
        != self.header.transactions_hash) = true) := by
      simp [bne_iff_ne, hroot1]
    have g6 : ¬((merkleRootOrZero (self.rejected_transactions.map Tx.hash)
        != self.header.rejected_transactions_hash) = true) := by
      simp [bne_iff_ne, hroot2]
    have hfa : acceptedCheckError tv wsv self.header.is_genesis self.transactions = none := by
      unfold acceptedCheckError
      rw [Option.map_eq_none', List.find?_eq_none]
      intro tx hm
      have h7 := hacc tx hm
      simp [h7.1, h7.2]
    have hfr : rejectedCheckError tv wsv self.header.is_genesis
        self.rejected_transactions = none := by
      unfold rejectedCheckError
      rw [Option.map_eq_none', List.find?_eq_none]
      intro tx hm
      have h8 := hrej tx hm
      simp [h8.1, h8.2]
    refine ⟨⟨self.header, self.rejected_transactions, self.transactions,
      self.signatures, self.event_recommendations⟩, ?_⟩
    unfold revalidateSpec
    rw [if_neg g1, if_neg g2, if_neg g3, if_neg g4, if_neg g5, if_neg g6, hfa, hfr]

/-- C2: CandidateBlock::revalidate performs its checks in exactly the claimed
order — emptiness, replay guard, previous-hash continuity, height continuity,
Merkle binding of the accepted then the rejected list, re-validation of every
accepted transaction, re-rejection of every rejected transaction — and for
every candidate it returns the error of the first failing check (with
expected/actual context for checks 3 and 4, the first failing transaction
determining the error of check 6 or 7), producing no partial state; it
returns a ValidSigned block iff all seven checks pass. -/
theorem revalidate_first_error (self : CandidateBlock)
    (tv : TransactionValidator) (wsv : WorldStateView)
    (latest_block : Hash) (block_height : Nat) :
    self.revalidate tv wsv latest_block block_height =
      revalidateSpec self tv wsv latest_block block_height ∧
    ((∃ vb, self.revalidate tv wsv latest_block block_height = Except.ok vb) ↔
      RevalidateChecksPass self tv wsv latest_block block_height) := by
  refine ⟨revalidate_eq_spec self tv wsv latest_block block_height, ?_⟩
  rw [revalidate_eq_spec self tv wsv latest_block block_height]
  exact revalidateSpec_ok_iff self tv wsv latest_block block_height

/-- Witness for C2: the refinement equation evaluated at a concrete
candidate. -/
theorem revalidate_first_error_witness :
    cValidSigned.toCandidate.revalidate cTv cWsv 0 0 =
      revalidateSpec cValidSigned.toCandidate cTv cWsv 0 0 :=
  (revalidate_first_error cValidSigned.toCandidate cTv cWsv 0 0).1

/-- C4: wire round-trip — for a ValidSigned block consistent with the
receiver state (non-empty, fresh transactions, matching previous hash,
height = latest height + 1, matching Merkle roots, every accepted
transaction re-accepted and every rejected transaction re-rejected),
converting to Candidate and revalidating returns exactly the original block:
equal header, same transaction ordering in both lists, signatures preserved
bit-exact. -/
theorem roundtrip_revalidate (b : ValidSignedBlock) (tv : TransactionValidator)
    (wsv : WorldStateView) (latest_block : Hash) (block_height : Nat)
    (hne : ¬(b.transactions = [] ∧ b.rejected_transactions = []))
    (hfresh : ∀ tx ∈ b.transactions ++ b.rejected_transactions,
      tx.is_in_blockchain wsv = false)
    (hprev : b.header.previous_block_hash = latest_block)
    (hheight : b.header.height = (block_height + 1) % U64)
    (hroot1 : merkleRootOrZero (b.transactions.map Tx.hash)
        = b.header.transactions_hash)
    (hroot2 : merkleRootOrZero (b.rejected_transactions.map Tx.hash)
        = b.header.rejected_transactions_hash)
    (hacc : ∀ tx ∈ b.transactions,
      tv.admits tx = true ∧ tv.accepts tx b.header.is_genesis wsv = true)
    (hrej : ∀ tx ∈ b.rejected_transactions,
      tv.admits tx = true ∧ tv.accepts tx b.header.is_genesis wsv = false) :
    b.toCandidate.revalidate tv wsv latest_block block_height = Except.ok b := by
  obtain ⟨header, rejected_transactions, transactions, signatures, event_recommendations⟩ := b
  have hc : ValidSignedBlock.toCandidate
      ⟨header, rejected_transactions, transactions, signatures, event_recommendations⟩ =
      ⟨header, rejected_transactions, transactions, signatures, event_recommendations⟩ := by
    simp [ValidSignedBlock.toCandidate]
  rw [hc, revalidate_eq_spec]
  have hok := (revalidateSpec_ok_iff
    ⟨header, rejected_transactions, transactions, signatures, event_recommendations⟩
    tv wsv latest_block block_height).2
    ⟨hne, hfresh, hprev, hheight, hroot1, hroot2, hacc, hrej⟩
  obtain ⟨vb, hvb⟩ := hok
  rw [hvb]
  unfold revalidateSpec at hvb
  split_ifs at hvb
  rcases hfa : acceptedCheckError tv wsv
      (BlockHeader.is_genesis header) transactions with _ | e
  · rcases hfr : rejectedCheckError tv wsv
        (BlockHeader.is_genesis header) rejected_transactions with _ | e2
    · rw [hfa, hfr] at hvb
      simp only [Except.ok.injEq] at hvb
      rw [← hvb]
    · rw [hfa, hfr] at hvb
      simp at hvb
  · rw [hfa] at hvb
    simp at hvb

/-- Fixture header for the round-trip witness, with both Merkle roots
computed over the fixture transactions. -/
def cHeaderRt : BlockHeader :=
  { timestamp := 3
    consensus_estimation := 4
    height := 1
    previous_block_hash := 7
    transactions_hash := 1000008
    rejected_transactions_hash := 1000009
    genesis_topology := none }

/-- Fixture signed block consistent with a receiver at height 0 whose latest
hash is 7. -/
def cRoundtrip : ValidSignedBlock :=
  { header := cHeaderRt
    rejected_transactions := [cTx1]
    transactions := [cTx0]
    signatures := [cSig]
    event_recommendations := [] }

/-- Witness for C4 at a concrete consistent block. -/
theorem roundtrip_revalidate_witness :
    cRoundtrip.toCandidate.revalidate cTv cWsv 7 0 = Except.ok cRoundtrip := by
  apply roundtrip_revalidate <;> decide

/-! Claim C5: the genesis predicate. -/

/-- Fixture pending block. -/
def cPending : PendingBlock :=
  { timestamp := 5
    transactions := [cTx0]
    event_recommendations := [] }

/-- Counterexample for C5: the chain constructor called with height 0 and a
non-zero previous hash produces, through a state-transition constructor, a
block whose header has height 1 (a genesis header per is_genesis) together
with a previous hash that is not the zero hash, refuting the claimed
equivalence. -/
theorem genesis_iff_cex :
    (cPending.chain 0 1).header.height = 1 ∧
    (cPending.chain 0 1).header.previous_block_hash ≠ Hash.zeroed ∧
    (cPending.chain 0 1).header.is_genesis = true := by decide

/-- C5 amended: is_genesis holds exactly at height 1; blocks from
chain_first and chain_first_with_genesis_topology satisfy the genesis
equivalence (height 1 iff zero previous hash) unconditionally; a block from
chain(height, prev) satisfies it provided the caller passes a real latest
height (at least 1, within u64) and a non-zero previous hash; and the
validate and commit transitions preserve height and previous hash, carrying
the equivalence to the Valid, ValidSigned and Committed forms. -/
theorem genesis_iff_amended (p : PendingBlock) (t : Topology) (height : Nat)
    (prev : Hash) (h1 : 1 ≤ height) (h2 : height < U64) (h3 : prev ≠ Hash.zeroed) :
    ((p.chain_first).header.height = 1 ↔
      (p.chain_first).header.previous_block_hash = Hash.zeroed) ∧
    ((p.chain_first_with_genesis_topology t).header.height = 1 ↔
      (p.chain_first_with_genesis_topology t).header.previous_block_hash = Hash.zeroed) ∧
    ((p.chain height prev).header.height = 1 ↔
      (p.chain height prev).header.previous_block_hash = Hash.zeroed) ∧
    (∀ cb : ChainedBlock, ∀ tv wsv,
      (cb.validate tv wsv).header.height = cb.header.height ∧
      (cb.validate tv wsv).header.previous_block_hash = cb.header.previous_block_hash) ∧
    (∀ vb : ValidSignedBlock, vb.commit.header = vb.header) ∧
    (∀ h : BlockHeader, h.is_genesis = true ↔ h.height = 1) := by
  have hmod : (height + 1) % U64 ≠ 1 := by
    rcases Nat.lt_or_ge (height + 1) U64 with hlt | hge
    · rw [Nat.mod_eq_of_lt hlt]
      omega
    · have heq : height + 1 = U64 := by omega
      rw [heq, Nat.mod_self]
      intro hcontra
      exact absurd hcontra.symm one_ne_zero
  refine ⟨by simp [PendingBlock.chain_first],
    by simp [PendingBlock.chain_first_with_genesis_topology], ?_, ?_, ?_, ?_⟩
  · constructor
    · intro hh
      exact absurd hh hmod
    · intro hp
      exact absurd hp h3
  · intro cb tv wsv
    constructor <;> simp [ChainedBlock.validate]
  · intro vb
    rfl
  · intro h
    simp [BlockHeader.is_genesis]

/-- Witness for C5 amended at concrete arguments. -/
theorem genesis_iff_amended_witness :
    (cPending.chain 3 7).header.height = 1 ↔
      (cPending.chain 3 7).header.previous_block_hash = Hash.zeroed := by
  have h := genesis_iff_amended cPending ⟨[]⟩ 3 7 (by decide) (by decide) (by decide)
  exact h.2.2.1

/-! Chain fixtures and iterator helper lemmas for claims C6, C7 and C10. -/

/-- Fixture committed block at height 2. -/
def cCommitted2 : CommittedBlock :=
  { header := { cHeader with height := 2 }
    rejected_transactions := []
    transactions := []
    event_recommendations := []
    signatures := [cSig] }

/-- Fixture chain with one block at height 1. -/
def cChain1 : Chain := Chain.new.push cCommitted1

/-- Fixture chain with blocks at heights 1 and 2. -/
def cChain2 : Chain := (Chain.new.push cCommitted1).push cCommitted2

/-- Bounded density check over the chain: an entry exists at every height
from 1 to len (the setting of claim C6). -/
def Chain.denseBool (c : Chain) : Bool :=
  (List.range c.len).all (fun i => (c.get (i + 1)).isSome)

theorem denseBool_get (c : Chain) (hd : c.denseBool = true) :
    ∀ i, i < c.len → (c.get (i + 1)).isSome = true := by
  intro i hi
  exact List.all_eq_true.1 hd i (List.mem_range.2 hi)

theorem next_yield (c : Chain) (f b : Nat) (hfb : f ≤ b) (hf : f + 1 < U64) :
    ChainIterator.next ⟨f, b⟩ c = some (c.get f, ⟨f + 1, b⟩) := by
  simp only [ChainIterator.next, ChainIterator.is_exhausted, checkedAdd]
  rw [if_neg (by simpa using Nat.not_lt.2 hfb), if_pos hf]
  rfl

theorem next_exhausted (c : Chain) (f b : Nat) (hfb : b < f) :
    ChainIterator.next ⟨f, b⟩ c = some (none, ⟨f, b⟩) := by
  simp only [ChainIterator.next, ChainIterator.is_exhausted]
  rw [if_pos (by simpa using hfb)]

theorem next_back_yield (c : Chain) (f b : Nat) (hfb : f ≤ b) (hb : 1 ≤ b) :
    ChainIterator.next_back ⟨f, b⟩ c = some (c.get b, ⟨f, b - 1⟩) := by
  simp only [ChainIterator.next_back, ChainIterator.is_exhausted, checkedSub]
  rw [if_neg (by simpa using Nat.not_lt.2 hfb), if_pos hb]
  rfl

theorem count_eval (c : Chain) (f b : Nat) (hf1 : 1 ≤ f) (hfl : f - 1 ≤ c.len) :
    ChainIterator.count ⟨f, b⟩ c = some (c.len - (f - 1)) := by
  simp [ChainIterator.count, checkedSub, hf1, hfl]

/-- C6: for a chain holding blocks at dense contiguous heights 1..len with
no mutation during iteration — nth(i) on a fresh iterator yields the entry
of height i + 1 (which exists) for every i below len; nth_back(i), which is
what the reversed adapter runs for nth, yields the entry of height len - i;
skip(k).count() equals len - k truncated at zero; forward iteration visits
ascending heights (the iterator at front position j + 1 yields height j + 1
and steps to j + 2) and reverse iteration visits descending heights; and
size_hint on a forward iterator that has yielded j entries is the number of
remaining entries, twice. -/
theorem chain_iter_ordered (c : Chain) (hlen : c.len + 1 < U64)
    (hd : c.denseBool = true) :
    (∀ i, i < c.len →
      (ChainIterator.new c).nth c i = some (c.get (i + 1), ⟨i + 2, c.len⟩) ∧
      (c.get (i + 1)).isSome = true) ∧
    (∀ i, i < c.len →
      (ChainIterator.new c).nth_back c i
          = some (c.get (c.len - i), ⟨1, c.len - i - 1⟩) ∧
      (c.get (c.len - i)).isSome = true) ∧
    (∀ k, k < U64 → (ChainIterator.new c).skipCount c k = some (c.len - k)) ∧
    (∀ j, j < c.len →
      ChainIterator.next ⟨j + 1, c.len⟩ c = some (c.get (j + 1), ⟨j + 2, c.len⟩)) ∧
    (∀ j, j < c.len →
      ChainIterator.next_back ⟨1, c.len - j⟩ c
          = some (c.get (c.len - j), ⟨1, c.len - j - 1⟩)) ∧
    (∀ j, j ≤ c.len →
      ChainIterator.size_hint ⟨j + 1, c.len⟩ c = some (c.len - j, c.len - j)) := by
  have hadd : ∀ i : Nat, 1 + i < U64 → checkedAdd 1 i = some (1 + i) := by
    intro i hi
    simp [checkedAdd, hi]
  refine ⟨?_, ?_, ?_, ?_, ?_, ?_⟩
  · intro i hi
    refine ⟨?_, denseBool_get c hd i hi⟩
    unfold ChainIterator.nth ChainIterator.new
    rw [hadd i (by omega), Option.some_bind]
    rw [next_yield c (1 + i) c.len (by omega) (by omega)]
    have h1 : 1 + i = i + 1 := Nat.add_comm 1 i
    rw [h1]
  · intro i hi
    have hsub : checkedSub c.len i = some (c.len - i) := by
      simp [checkedSub]
      omega
    refine ⟨?_, ?_⟩
    · unfold ChainIterator.nth_back ChainIterator.new
      rw [hsub, Option.some_bind]
      exact next_back_yield c 1 (c.len - i) (by omega) (by omega)
    · have h1 : c.len - i - 1 + 1 = c.len - i := by omega
      have h2 := denseBool_get c hd (c.len - i - 1) (by omega)
      rwa [h1] at h2
  · intro k hk
    unfold ChainIterator.skipCount ChainIterator.new
    by_cases hk0 : k = 0
    · rw [if_pos hk0, count_eval c 1 c.len (by omega) (by omega), hk0]
    · rw [if_neg hk0]
      have hnth : ChainIterator.nth ⟨1, c.len⟩ c (k - 1) =
          (checkedAdd 1 (k - 1)).bind
            (fun pf => ChainIterator.next ⟨pf, c.len⟩ c) := rfl
      rw [hnth, hadd (k - 1) (by omega), Option.some_bind]
      rcases Nat.lt_or_ge c.len (1 + (k - 1)) with hgt | hle
      · rw [next_exhausted c (1 + (k - 1)) c.len hgt]
        show (some 0 : Option Nat) = some (c.len - k)
        have hz : c.len - k = 0 := by omega
        rw [hz]
      · rw [next_yield c (1 + (k - 1)) c.len (by omega) (by omega)]
        have hg := denseBool_get c hd (k - 1) (by omega)
        obtain ⟨blk, hblk⟩ := Option.isSome_iff_exists.1 (by
          have h1 : k - 1 + 1 = 1 + (k - 1) := by omega
          rw [h1] at hg
          exact hg)
        rw [hblk]
        show ChainIterator.count ⟨1 + (k - 1) + 1, c.len⟩ c = some (c.len - k)
        rw [count_eval c (1 + (k - 1) + 1) c.len (by omega) (by omega)]
        have h2 : c.len - (1 + (k - 1) + 1 - 1) = c.len - k := by omega
        rw [h2]
  · intro j hj
    exact next_yield c (j + 1) c.len (by omega) (by omega)
  · intro j hj
    exact next_back_yield c 1 (c.len - j) (by omega) (by omega)
  · intro j hj
    have h1 : 1 ≤ j + 1 := by omega
    simp [ChainIterator.size_hint, checkedSub, h1, hj]

/-- Witness for C6 on a concrete two-block chain: nth(1) yields the entry
at height 2. -/
theorem chain_iter_ordered_witness :
    (ChainIterator.new cChain2).nth cChain2 1 = some (cChain2.get 2, ⟨3, cChain2.len⟩) := by
  have h := chain_iter_ordered cChain2 (by decide) (by decide)
  simpa using (h.1 1 (by decide)).1

/-! Claims C7 and C10: iterator snapshotting and iterator arithmetic. -/

theorem next_bounded (it : ChainIterator) (c : Chain) (n : Nat)
    (hb : it.pos_back ≤ n) (blk : CommittedBlock) (it2 : ChainIterator)
    (h : it.next c = some (some blk, it2)) :
    (∃ k, k ≤ n ∧ c.get k = some blk) ∧ it2.pos_back ≤ n := by
  unfold ChainIterator.next at h
  by_cases he : it.is_exhausted = true
  · rw [if_pos he] at h
    simp at h
  · rw [if_neg he] at h
    unfold checkedAdd at h
    by_cases hov : it.pos_front + 1 < U64
    · rw [if_pos hov] at h
      simp only [Option.map_some', Option.some.injEq, Prod.mk.injEq] at h
      obtain ⟨hget, hit⟩ := h
      have hfb : it.pos_front ≤ it.pos_back := by
        have := he
        simp only [ChainIterator.is_exhausted, decide_eq_true_eq] at this
        omega
      exact ⟨⟨it.pos_front, le_trans hfb hb, hget⟩, by rw [← hit]; exact hb⟩
    · rw [if_neg hov] at h
      simp at h

theorem next_back_bounded (it : ChainIterator) (c : Chain) (n : Nat)
    (hb : it.pos_back ≤ n) (blk : CommittedBlock) (it2 : ChainIterator)
    (h : it.next_back c = some (some blk, it2)) :
    (∃ k, k ≤ n ∧ c.get k = some blk) ∧ it2.pos_back ≤ n := by
  unfold ChainIterator.next_back at h
  by_cases he : it.is_exhausted = true
  · rw [if_pos he] at h
    simp at h
  · rw [if_neg he] at h
    unfold checkedSub at h
    by_cases hun : 1 ≤ it.pos_back
    · rw [if_pos hun] at h
      simp only [Option.map_some', Option.some.injEq, Prod.mk.injEq] at h
      obtain ⟨hget, hit⟩ := h
      exact ⟨⟨it.pos_back, hb, hget⟩, by rw [← hit]; simp; omega⟩
    · rw [if_neg hun] at h
      simp at h

/-- Counterexample for C7: an iterator created on the empty chain (captured
length 0) still returns, from last(), the entry pushed at height 1 after
its creation — last consults the live chain length, so an insert during
iteration is yielded at a height greater than the length at creation. -/
theorem iter_snapshot_cex :
    Chain.new.len = 0 ∧
    (ChainIterator.new Chain.new).last (Chain.new.push cCommitted1) = some cCommitted1 ∧
    cCommitted1.header.height = 1 := by decide

/-- C7 amended: the yield bounds of next, next_back, nth and nth_back are
captured at creation — against any live chain they only ever yield entries
stored at keys at most the captured back position and never increase that
position — but last, count and size_hint consult the live chain length:
last reads the entry at the live length key, and a defined count value is
computed from the live length, so entries pushed after creation can be
yielded by last and are accounted for by count and size_hint. -/
theorem iter_snapshot_amended (it : ChainIterator) (c : Chain) (n : Nat)
    (hb : it.pos_back ≤ n) :
    (∀ blk it2, it.next c = some (some blk, it2) →
      (∃ k, k ≤ n ∧ c.get k = some blk) ∧ it2.pos_back ≤ n) ∧
    (∀ blk it2, it.next_back c = some (some blk, it2) →
      (∃ k, k ≤ n ∧ c.get k = some blk) ∧ it2.pos_back ≤ n) ∧
    (∀ m blk it2, it.nth c m = some (some blk, it2) →
      (∃ k, k ≤ n ∧ c.get k = some blk) ∧ it2.pos_back ≤ n) ∧
    (∀ m blk it2, it.nth_back c m = some (some blk, it2) →
      (∃ k, k ≤ n ∧ c.get k = some blk) ∧ it2.pos_back ≤ n) ∧
    it.last c = c.get c.len ∧
    (∀ m, it.count c = some m → m = c.len + 1 - it.pos_front) := by
  refine ⟨fun blk it2 h => next_bounded it c n hb blk it2 h,
    fun blk it2 h => next_back_bounded it c n hb blk it2 h, ?_, ?_, rfl, ?_⟩
  · intro m blk it2 h
    unfold ChainIterator.nth at h
    rcases hca : checkedAdd it.pos_front m with _ | pf
    · rw [hca] at h
      simp at h
    · rw [hca, Option.some_bind] at h
      exact next_bounded ⟨pf, it.pos_back⟩ c n hb blk it2 h
  · intro m blk it2 h
    unfold ChainIterator.nth_back at h
    rcases hcs : checkedSub it.pos_back m with _ | pb
    · rw [hcs] at h
      simp at h
    · rw [hcs, Option.some_bind] at h
      have hpb : pb ≤ n := by
        unfold checkedSub at hcs
        by_cases hle : m ≤ it.pos_back
        · rw [if_pos hle] at hcs
          simp only [Option.some.injEq] at hcs
          omega
        · rw [if_neg hle] at hcs
          cases hcs
      exact next_back_bounded ⟨it.pos_front, pb⟩ c n hpb blk it2 h
  · intro m hm
    unfold ChainIterator.count checkedSub at hm
    by_cases h1 : 1 ≤ it.pos_front
    · rw [if_pos h1, Option.some_bind] at hm
      by_cases h2 : it.pos_front - 1 ≤ c.len
      · rw [if_pos h2] at hm
        simp only [Option.some.injEq] at hm
        omega
      · rw [if_neg h2] at hm
        cases hm
    · rw [if_neg h1] at hm
      cases hm

/-- Witness for C7 amended: last on the one-block chain reads the live
length key. -/
theorem iter_snapshot_amended_witness :
    (ChainIterator.new cChain1).last cChain1 = cChain1.get cChain1.len := by
  have h := iter_snapshot_amended (ChainIterator.new cChain1) cChain1 1 (by decide)
  exact h.2.2.2.2.1

/-- Counterexample for C10: on a fresh iterator over a one-block chain,
nth_back with n equal to the back position (so n at least pos_back, as the
claim has it) does not underflow — the subtraction reaches zero and
next_back then reports exhaustion cleanly — refuting the claimed underflow
for every n at least pos_back; underflow needs n strictly greater. -/
theorem iter_arith_cex :
    (ChainIterator.new cChain1).pos_back = 1 ∧
    (ChainIterator.new cChain1).nth_back cChain1 1 = some (none, ⟨1, 0⟩) := by decide

/-- C10 amended: the iterator arithmetic is unchecked u64 — nth adds n to
the front position with no bound check against the chain (overflowing u64
for large enough n), nth_back underflows for every n strictly greater than
the back position, and count and size_hint underflow once the front
position has advanced past the chain length plus one — so these public
iterator operations are not total over all inputs. -/
theorem iter_arith_unchecked (it : ChainIterator) (c : Chain) (n : Nat) :
    (it.pos_front + n < U64 →
      it.nth c n = ChainIterator.next ⟨it.pos_front + n, it.pos_back⟩ c) ∧
    (U64 ≤ it.pos_front + n → it.nth c n = none) ∧
    (it.pos_back < n → it.nth_back c n = none) ∧
    (c.len + 1 < it.pos_front → it.count c = none ∧ it.size_hint c = none) := by
  refine ⟨?_, ?_, ?_, ?_⟩
  · intro hlt
    unfold ChainIterator.nth checkedAdd
    rw [if_pos hlt, Option.some_bind]
  · intro hge
    unfold ChainIterator.nth checkedAdd
    rw [if_neg (by omega)]
    rfl
  · intro hlt
    unfold ChainIterator.nth_back checkedSub
    rw [if_neg (by omega)]
    rfl
  · intro hfar
    constructor
    · unfold ChainIterator.count checkedSub
      rw [if_pos (by omega : 1 ≤ it.pos_front), Option.some_bind,
        if_neg (by omega : ¬(it.pos_front - 1 ≤ c.len))]
    · unfold ChainIterator.size_hint checkedSub
      rw [if_pos (by omega : 1 ≤ it.pos_front), Option.some_bind,
        if_neg (by omega : ¬(it.pos_front - 1 ≤ c.len))]
      rfl

/-- Witness for C10 amended: nth_back(2) underflows on a fresh iterator
over the one-block chain. -/
theorem iter_arith_unchecked_witness :
    (ChainIterator.new cChain1).nth_back cChain1 2 = none := by
  have h := iter_arith_unchecked (ChainIterator.new cChain1) cChain1 2
  exact h.2.2.1 (by decide)

end Iroha
